import Mathlib

/-!
Verification development for the ruffwrap dispatcher (src/ruffwrap/cli.py).

The Python source is shallowly embedded below.  External collaborators
(filesystem queries from os.path, shutil.which, the environment, and the
wrapped tool's child-process invocations) are abstracted as fields of a
`WorldOps` record; everything else (the sentinel regular expressions and
their backtracking behaviour, shlex word splitting, the line scanner of
`ModeBase.process_sentinels`, executable resolution in `ModeBase.ruff`,
the mode registry handlers, `BatchMode._get_files_by_depth`,
`BatchMode._get_paths_from_args` and the orchestration loop of
`BatchMode.run`) is translated directly from the source.  Python runtime
errors that can escape those code paths (FileNotFoundError, IndexError,
ValueError, a fatal CalledProcessError) are modelled with `Except`.
-/

namespace Ruffwrap

/-! ### Association lists modelling Python dicts (insertion ordered) -/

def lookupAssoc {κ α : Type} [DecidableEq κ] (k : κ) : List (κ × α) → Option α
  | [] => none
  | p :: l => if p.1 = k then some p.2 else lookupAssoc k l

def updAssoc {κ α : Type} [DecidableEq κ] (k : κ) (v : α) : List (κ × α) → List (κ × α)
  | [] => [(k, v)]
  | p :: l => if p.1 = k then (k, v) :: l else p :: updAssoc k v l

/-- Python `list.index` (first occurrence), as used in `_get_paths_from_args`. -/
def pythonIndex (x : String) : List String → Option Nat
  | [] => none
  | y :: ys => if y = x then some 0 else (pythonIndex x ys).map (· + 1)

/-- Python `str.count("/")`, as used for the directory depth in
`_get_files_by_depth`. -/
def countSlash (s : String) : Nat := s.data.countP (fun c => c = '/')

def basenameAux : List Char → List Char → List Char
  | [], acc => acc
  | c :: cs, acc => if c = '/' then basenameAux cs [] else basenameAux cs (acc ++ [c])

/-- `os.path.basename`: the part of the path after the last slash. -/
def basename (s : String) : String := String.mk (basenameAux s.data [])

/-- `os.path.dirname` for plain slash-separated paths (used only to build
concrete example worlds). -/
def dirnameStr (s : String) : String :=
  String.mk (((s.data.reverse.dropWhile (fun c => c ≠ '/')).drop 1).reverse)

/-- `os.path.relpath p start` for the simple case where `p` lies strictly
below `start` or equals it (used only to build concrete example worlds). -/
def relpathStub (p start : String) : String :=
  if p = start then "." else String.mk (p.data.drop (start.data.length + 1))

/-! ### shlex.split (POSIX mode), as used on exec values, sentinel command
arguments and the built-in mode definitions -/

inductive ShMode where
  | norm
  | inSq
  | inDq
  | escN
  | escD
deriving DecidableEq

def flushTok (cur : Option (List Char)) (acc : List (List Char)) : List (List Char) :=
  match cur with
  | none => acc
  | some t => acc ++ [t]

def addCh (cur : Option (List Char)) (c : Char) : Option (List Char) :=
  some (cur.getD [] ++ [c])

def shlexGo : List Char → ShMode → Option (List Char) → List (List Char) → List (List Char)
  | [], _, cur, acc => flushTok cur acc
  | c :: cs, ShMode.norm, cur, acc =>
    if c = ' ' ∨ c = '\t' ∨ c = '\n' ∨ c = '\x0d' then
      shlexGo cs ShMode.norm none (flushTok cur acc)
    else if c = '\x27' then shlexGo cs ShMode.inSq (some (cur.getD [])) acc
    else if c = '"' then shlexGo cs ShMode.inDq (some (cur.getD [])) acc
    else if c = '\\' then shlexGo cs ShMode.escN (some (cur.getD [])) acc
    else shlexGo cs ShMode.norm (addCh cur c) acc
  | c :: cs, ShMode.inSq, cur, acc =>
    if c = '\x27' then shlexGo cs ShMode.norm cur acc
    else shlexGo cs ShMode.inSq (addCh cur c) acc
  | c :: cs, ShMode.inDq, cur, acc =>
    if c = '"' then shlexGo cs ShMode.norm cur acc
    else if c = '\\' then shlexGo cs ShMode.escD cur acc
    else shlexGo cs ShMode.inDq (addCh cur c) acc
  | c :: cs, ShMode.escN, cur, acc => shlexGo cs ShMode.norm (addCh cur c) acc
  | c :: cs, ShMode.escD, cur, acc =>
    if c = '"' ∨ c = '\\' then shlexGo cs ShMode.inDq (addCh cur c) acc
    else shlexGo cs ShMode.inDq (addCh (addCh cur '\\') c) acc

def shlexSplit (s : String) : List String :=
  (shlexGo s.data ShMode.norm none []).map String.mk

/-! ### The three sentinel regular expressions

The source registers, in insertion order, the patterns
`__RUFFWRAP_EXEC__(?P<EXEC>(.+)),$`,
`__RUFFWRAP_MODE_(?P<MODE>([a-zA-Z0-9\-\_]+))_DEFAULT_DEFINITION__,$` and
`__RUFFWRAP_MODE_(?P<MODE>([a-zA-Z0-9\-\_]+))_CMD_(?P<IDX>([\d+]))__(?P<ARGS>(.*)),$`
and applies each with `re.search` (leftmost match position; greedy groups
explored longest first).  Note that `[\d+]` is a character class matching a
single digit or a literal plus sign. -/

def classChar (c : Char) : Bool := c.isAlphanum || c = '-' || c = '_'

def dropLit : List Char → List Char → Option (List Char)
  | [], cs => some cs
  | _ :: _, [] => none
  | l :: ls, c :: cs => if c = l then dropLit ls cs else none

/-- Attempt of the EXEC pattern anchored at the head of `cs`:
the literal, then a nonempty greedy `.+`, then a comma at end of line. -/
def execMatchAt (cs : List Char) : Option (List Char) :=
  match dropLit "__RUFFWRAP_EXEC__".data cs with
  | none => none
  | some rest =>
    if 2 ≤ rest.length ∧ rest.getLast? = some ',' then some rest.dropLast else none

def searchExec : List Char → Option (List Char)
  | [] => none
  | c :: cs =>
    match execMatchAt (c :: cs) with
    | some v => some v
    | none => searchExec cs

/-- Try MODE group lengths `k, k-1, ..., 1` (greedy, longest first) for the
DEFAULT_DEFINITION pattern: the remainder after MODE must be exactly
`_DEFAULT_DEFINITION__,` at end of line. -/
def ddTryLen (run tailCs : List Char) : Nat → Option (List Char)
  | 0 => none
  | k + 1 =>
    if run.drop (k + 1) ++ tailCs = "_DEFAULT_DEFINITION__,".data then some (run.take (k + 1))
    else ddTryLen run tailCs k

def ddMatchAt (cs : List Char) : Option (List Char) :=
  match dropLit "__RUFFWRAP_MODE_".data cs with
  | none => none
  | some rest =>
    ddTryLen (rest.takeWhile classChar) (rest.dropWhile classChar)
      (rest.takeWhile classChar).length

def searchDefDef : List Char → Option (List Char)
  | [] => none
  | c :: cs =>
    match ddMatchAt (c :: cs) with
    | some v => some v
    | none => searchDefDef cs

/-- Deterministic tail of the CMD pattern for a fixed MODE split:
`_CMD_`, one character of the class `[\d+]`, `__`, then the greedy `.*`
followed by a comma at end of line. -/
def cmdCheckSplit (m rest : List Char) : Option (List Char × Char × List Char) :=
  match dropLit "_CMD_".data rest with
  | none => none
  | some r2 =>
    match r2 with
    | [] => none
    | c :: r3 =>
      if c.isDigit || c = '+' then
        match dropLit "__".data r3 with
        | none => none
        | some r4 =>
          match r4.getLast? with
          | some ch => if ch = ',' then some (m, c, r4.dropLast) else none
          | none => none
      else none

def cmdTryLen (run tailCs : List Char) : Nat → Option (List Char × Char × List Char)
  | 0 => none
  | k + 1 =>
    match cmdCheckSplit (run.take (k + 1)) (run.drop (k + 1) ++ tailCs) with
    | some r => some r
    | none => cmdTryLen run tailCs k

def cmdMatchAt (cs : List Char) : Option (List Char × Char × List Char) :=
  match dropLit "__RUFFWRAP_MODE_".data cs with
  | none => none
  | some rest =>
    cmdTryLen (rest.takeWhile classChar) (rest.dropWhile classChar)
      (rest.takeWhile classChar).length

def searchCmd : List Char → Option (List Char × Char × List Char)
  | [] => none
  | c :: cs =>
    match cmdMatchAt (c :: cs) with
    | some v => some v
    | none => searchCmd cs

/-! ### Parser state and sentinel handlers -/

/-- The shared mutable state reset per directory: `self._exec` and
`self._modes` (the latter only used by `BatchMode`). -/
structure BSt where
  exec : String
  modes : List (String × List (Nat × List String))
deriving DecidableEq

/-- State right after `self._reset()`. -/
def bst0 : BSt := BSt.mk "" []

/-- Python runtime failures that can escape the embedded code paths. -/
inductive Fatal where
  | toolNotFound
  | probeFailure
  | indexError
  | valueError
deriving DecidableEq

instance decEqExcept {ε α : Type} [DecidableEq ε] [DecidableEq α] : DecidableEq (Except ε α) :=
  fun x y =>
    match x, y with
    | Except.error a, Except.error b =>
      if h : a = b then isTrue (congrArg Except.error h)
      else isFalse (fun hc => h (Except.error.inj hc))
    | Except.ok a, Except.ok b =>
      if h : a = b then isTrue (congrArg Except.ok h)
      else isFalse (fun hc => h (Except.ok.inj hc))
    | Except.error _, Except.ok _ => isFalse (fun hc => Except.noConfusion hc)
    | Except.ok _, Except.error _ => isFalse (fun hc => Except.noConfusion hc)

def enumAux {α : Type} : Nat → List α → List (Nat × α)
  | _, [] => []
  | n, x :: xs => (n, x) :: enumAux (n + 1) xs

/-- `BatchMode._get_hook_mode_default_definition` (the `fix_arg` parameter is
`"--no-fix"` for hook mode and `"--fix"` for hook-fix mode). -/
def hookModeDefaultDefinition (fixArg : String) : List (Nat × List String) :=
  enumAux 0 (List.map shlexSplit
    [ "check " ++ fixArg
    , "format"
    , "check --fix-only --select RUF100 --quiet"
    , "check --add-noqa --quiet"
    , "format --quiet"
    , "check --fix-only --select RUF100 --quiet"
    , "check --add-noqa --quiet"
    , "check --exit-zero --no-fix --output-format=json-lines"
    , "format --quiet --check" ])

/-- `BatchMode._get_verify_mode_default_definition`. -/
def verifyModeDefaultDefinition : List (Nat × List String) :=
  enumAux 0 (List.map shlexSplit
    [ "check --no-fix --no-cache --config \"cache-dir = \x27/dev/null\x27\""
    , "format --check --no-cache --config \"cache-dir = \x27/dev/null\x27\"" ])

/-- `BatchMode._get_enroll_mode_default_definition`. -/
def enrollModeDefaultDefinition : List (Nat × List String) :=
  enumAux 0 (List.map shlexSplit
    [ "format"
    , "check --fix-only --select PLR2044 --quiet"
    , "check --add-noqa"
    , "format --quiet"
    , "check --fix-only --select RUF100 --quiet"
    , "check --add-noqa --quiet"
    , "format --quiet"
    , "check --add-noqa --quiet"
    , "format --quiet"
    , "check --no-fix --quiet" ])

/-- `self._mode_default_definition_funcs`: the hardcoded generators for the
four built-in mode names. -/
def knownDefs (m : String) : Option (List (Nat × List String)) :=
  if m = "hook" then some (hookModeDefaultDefinition "--no-fix")
  else if m = "hook-fix" then some (hookModeDefaultDefinition "--fix")
  else if m = "verify" then some verifyModeDefaultDefinition
  else if m = "enroll" then some enrollModeDefaultDefinition
  else none

/-- `BatchMode._sentinel_default_definition` (match branch):
`self._modes[mode] = def_func() if def_func else {}`. -/
def applyDefDef (st : BSt) (m : String) : BSt :=
  BSt.mk st.exec (updAssoc m ((knownDefs m).getD []) st.modes)

/-- `BatchMode._sentinel_cmd` (match branch): records the shell-word-split
token list under the mode at `int(IDX)`; `int` on the plus sign the
character class admits would raise ValueError. -/
def applyCmdSentinel (st : BSt) (m : String) (idxc : Char) (args : String) : Except Fatal BSt :=
  if idxc.isDigit then
    Except.ok (BSt.mk st.exec
      (updAssoc m (updAssoc (idxc.toNat - 48) (shlexSplit args)
        ((lookupAssoc m st.modes).getD [])) st.modes))
  else Except.error Fatal.valueError

/-- One line tested against the registered rules in insertion order
(`_sentinel_exec`, then `_sentinel_default_definition`, then
`_sentinel_cmd`); the first match fires and no further rules are tried. -/
def applyRules (line : String) (st : BSt) : Except Fatal BSt :=
  match searchExec line.data with
  | some v => Except.ok (BSt.mk (String.mk v) st.modes)
  | none =>
    match searchDefDef line.data with
    | some m => Except.ok (applyDefDef st (String.mk m))
    | none =>
      match searchCmd line.data with
      | some r => applyCmdSentinel st (String.mk r.1) r.2.1 (String.mk r.2.2)
      | none => Except.ok st

def sentinelHeader : String := "linter.builtins = ["

/-- Python `str.startswith`. -/
def strStartsWith (s pre : String) : Bool := (dropLit pre.data s.data).isSome

/-- The line loop of `ModeBase.process_sentinels`: skip lines until one
starts with the header (that same line then falls through to the
terminator test), stop at the first line whose last character is `]`,
and otherwise dispatch the line to the rules.  `line[-1]` on an empty
line raises IndexError. -/
def scanLines : List String → Bool → BSt → Except Fatal BSt
  | [], _, st => Except.ok st
  | line :: rest, looking, st =>
    if looking && !(strStartsWith line sentinelHeader) then scanLines rest true st
    else
      match line.data.getLast? with
      | none => Except.error Fatal.indexError
      | some c =>
        if c = ']' then Except.ok st
        else
          match applyRules line st with
          | Except.error e => Except.error e
          | Except.ok st2 => scanLines rest false st2

/-! ### The external world

`WorldOps` packages the collaborators the source calls out to: `os.path`
queries (`isdir`, `abspath`, `dirname`, `relpath`), `shutil.which` results
for `ruff` and `uvx`, the `RUFFWRAP_EXEC` environment variable, and — keyed
by the directory the orchestrator has `chdir`ed into — the outcome of the
`--show-settings` configuration-dump probe, the `--show-files` listing, and
the exit code of an arbitrary child invocation. -/

/-- Outcome of the configuration-dump probe (`subprocess.run(..., check=True)`):
its stdout lines on success, the benign "No files found under the given
path" failure, or any other `CalledProcessError` (re-raised, fatal). -/
inductive ProbeResult where
  | lines (out : List String)
  | noFiles
  | fail
deriving DecidableEq

structure WorldOps where
  isdir : String → Bool
  abspath : String → String
  dirname : String → String
  relpath : String → String → String
  whichRuff : Option String
  whichUvx : Option String
  envExec : Option String
  configDump : String → ProbeResult
  showFiles : String → List String
  runCmd : String → List String → Nat

/-- Executable resolution from `ModeBase.ruff` (lines 143-153): with the skip
flag the environment default alone is consulted, otherwise the sentinel
override (empty string meaning none); failing that, `shutil.which("ruff")`,
then `shutil.which("uvx")` suffixed with `" ruff"`; if nothing resolves a
FileNotFoundError is raised; the result is `shlex.split` before use. -/
def resolveExec (skip : Bool) (envExec : Option String) (sentinelExec : String)
    (whichRuff whichUvx : Option String) : Except Fatal (List String) :=
  let e0 : Option String :=
    if skip then envExec else if sentinelExec = "" then none else some sentinelExec
  let e1 : Option String :=
    match e0 with
    | some s => some s
    | none =>
      match whichRuff with
      | some r => some r
      | none =>
        match whichUvx with
        | some u => some (u ++ " ruff")
        | none => none
  match e1 with
  | none => Except.error Fatal.toolNotFound
  | some s => Except.ok (shlexSplit s)

/-- `ModeBase.process_sentinels`: build the probe command via `self.ruff`
(which can raise FileNotFoundError), run it, treat "no files found" as "no
sentinels" and other probe failures as fatal, then scan the stdout lines. -/
def processSentinels (skip : Bool) (w : WorldOps) (dir : String) (st : BSt) :
    Except Fatal BSt :=
  match resolveExec skip w.envExec st.exec w.whichRuff w.whichUvx with
  | Except.error e => Except.error e
  | Except.ok _ =>
    match w.configDump dir with
    | ProbeResult.noFiles => Except.ok st
    | ProbeResult.fail => Except.error Fatal.probeFailure
    | ProbeResult.lines out => scanLines out true st

/-! ### Sorting by key: Python `sorted` over dict items -/

def insKeyAsc {β : Type} (p : Nat × β) : List (Nat × β) → List (Nat × β)
  | [] => [p]
  | q :: l => if p.1 ≤ q.1 then p :: q :: l else q :: insKeyAsc p l

/-- `sorted(d.items())`: stable ascending sort by key. -/
def sortKeyAsc {β : Type} (l : List (Nat × β)) : List (Nat × β) := l.foldr insKeyAsc []

def insKeyDesc {β : Type} (p : Nat × β) : List (Nat × β) → List (Nat × β)
  | [] => [p]
  | q :: l => if q.1 ≤ p.1 then p :: q :: l else q :: insKeyDesc p l

/-- `sorted(d.items(), reverse=True)`: stable descending sort by key. -/
def sortKeyDesc {β : Type} (l : List (Nat × β)) : List (Nat × β) := l.foldr insKeyDesc []

/-! ### BatchMode: path grouping, argument handling, orchestration -/

/-- One path step of `BatchMode._get_files_by_depth`: skip directories, and
add the absolute path into the set at `files_by_depth[depth][file_dir]`. -/
def fbdStep (w : WorldOps) (initwd : String)
    (acc : List (Nat × List (String × List String))) (p : String) :
    List (Nat × List (String × List String)) :=
  if w.isdir p then acc
  else
    let ap := w.abspath p
    let fd := w.relpath (w.dirname ap) initwd
    let dp := countSlash fd
    let dm := (lookupAssoc dp acc).getD []
    let fsSet := (lookupAssoc fd dm).getD []
    let fsSet2 := if ap ∈ fsSet then fsSet else fsSet ++ [ap]
    updAssoc dp (updAssoc fd fsSet2 dm) acc

/-- `BatchMode._get_files_by_depth`. -/
def filesByDepth (w : WorldOps) (initwd : String) (paths : List String) :
    List (Nat × List (String × List String)) :=
  paths.foldl (fbdStep w initwd) []

/-- The file set stored at `files_by_depth[d][dir]` (empty if absent). -/
def bucketsOf (fbd : List (Nat × List (String × List String))) (d : Nat) (dir : String) :
    List String :=
  (lookupAssoc dir ((lookupAssoc d fbd).getD [])).getD []

/-- The bucket iteration sequence of `BatchMode.run`: depths in reverse
sorted order, and within a depth the directories in insertion order. -/
def bucketList (fbd : List (Nat × List (String × List String))) :
    List (String × List String) :=
  ((sortKeyDesc fbd).map (fun p => p.2)).flatten

/-- `BatchMode._get_paths_from_args`. -/
def getPathsFromArgs (args : List String) : Bool × List String :=
  match pythonIndex "--" args with
  | none => (true, args)
  | some i => if 0 < i then (false, args.take i) else (true, args.drop (i + 1))

/-- The command loop of `BatchMode.run`: run each command of the (sorted)
sequence with the resolved executable, the command tokens and the filtered
files appended; stop at the first nonzero exit, which becomes the bucket's
recorded code.  Also returns the list of issued command vectors. -/
def runSeq (w : WorldOps) (dir : String) (pre : List String) :
    List (Nat × List String) → List String → Nat × List (List String)
  | [], _ => (0, [])
  | c :: rest, files =>
    let argv := pre ++ c.2 ++ files
    let code := w.runCmd dir argv
    if code = 0 then
      let r := runSeq w dir pre rest files
      (r.1, argv :: r.2)
    else (code, [argv])

def absDirOf (initwd dirPath : String) : String := initwd ++ "/" ++ dirPath

/-- The body of the per-directory loop in `BatchMode.run`: chdir, reset,
re-scan sentinels, check the mode is defined (mode-require failing with 1
when not), filter the bucket's files through `--show-files`, skip if empty,
and run the command sequence in ascending index order.  Returns the
bucket's recorded exit code and the issued command vectors. -/
def processBucket (w : WorldOps) (mode : String) (modeRequire : Bool)
    (initwd dirPath : String) (absPaths : List String) :
    Except Fatal (Nat × List (List String)) :=
  match processSentinels false w (absDirOf initwd dirPath) bst0 with
  | Except.error e => Except.error e
  | Except.ok st =>
    match lookupAssoc mode st.modes with
    | none => Except.ok (if modeRequire then 1 else 0, [])
    | some modeCmds =>
      match resolveExec false w.envExec st.exec w.whichRuff w.whichUvx with
      | Except.error e => Except.error e
      | Except.ok pre =>
        let fs := ((w.showFiles (absDirOf initwd dirPath)).filter
          (fun f => absPaths.contains f)).map basename
        if fs = [] then Except.ok (0, [])
        else Except.ok (runSeq w (absDirOf initwd dirPath) pre (sortKeyAsc modeCmds) fs)

/-- The bucket fold of `BatchMode.run`: accumulate
`returncode = max(code, returncode)` and the invocation log, stopping the
whole run if a bucket raises. -/
def goBuckets (w : WorldOps) (mode : String) (modeRequire : Bool) (initwd : String) :
    List (String × List String) → Nat → List (String × List String) →
      Except Fatal (Nat × List (String × List String))
  | [], rc, log => Except.ok (rc, log)
  | b :: bs, rc, log =>
    match processBucket w mode modeRequire initwd b.1 b.2 with
    | Except.error e => Except.error e
    | Except.ok r =>
      goBuckets w mode modeRequire initwd bs (max r.1 rc)
        (log ++ r.2.map (fun v => (b.1, v)))

/-- The per-bucket recorded exit codes, in iteration order. -/
def bucketCodes (w : WorldOps) (mode : String) (modeRequire : Bool) (initwd : String) :
    List (String × List String) → Except Fatal (List Nat)
  | [] => Except.ok []
  | b :: bs =>
    match processBucket w mode modeRequire initwd b.1 b.2 with
    | Except.error e => Except.error e
    | Except.ok r =>
      match bucketCodes w mode modeRequire initwd bs with
      | Except.error e => Except.error e
      | Except.ok cs => Except.ok (r.1 :: cs)

/-- `BatchMode.run`: return 0 at once under the skip flag; reject malformed
passthrough arguments with exit code 3; otherwise group the paths by depth
and process every bucket, returning the aggregated exit code and the log of
issued command vectors. -/
def runB (w : WorldOps) (mode : String) (modeRequire : Bool) (skip : Bool)
    (initwd : String) (args : List String) :
    Except Fatal (Nat × List (String × List String)) :=
  if skip then Except.ok (0, [])
  else if (getPathsFromArgs args).1 = false then Except.ok (3, [])
  else
    goBuckets w mode modeRequire initwd
      (bucketList (filesByDepth w initwd (getPathsFromArgs args).2)) 0 []

/-! ### Concrete worlds used to instantiate the claims

The path collaborators mirror `os.path` behaviour for files directly under
an invocation root `/r`: nothing is a directory entry, `abspath` prefixes
the root, and `relpath`/`dirname` behave as on real slash-separated paths. -/

def wFail : WorldOps :=
  WorldOps.mk (fun _ => false) (fun p => "/r/" ++ p) dirnameStr relpathStub
    none none (some "/opt/ruff") (fun _ => ProbeResult.noFiles) (fun _ => []) (fun _ _ => 0)

def dump4a : List String :=
  [sentinelHeader, "__RUFFWRAP_MODE_m_CMD_0__a1,", "__RUFFWRAP_MODE_m_CMD_1__b1,",
    "__RUFFWRAP_MODE_m_CMD_2__c1,", "]"]

def dump4b : List String :=
  [sentinelHeader, "__RUFFWRAP_MODE_m_CMD_0__d1,", "]"]

def w4 : WorldOps :=
  WorldOps.mk (fun _ => false) (fun p => "/r/" ++ p) dirnameStr relpathStub
    (some "/usr/bin/ruff") none none
    (fun d => if d = "/r/a" then ProbeResult.lines dump4a
      else if d = "/r/b" then ProbeResult.lines dump4b else ProbeResult.noFiles)
    (fun d => if d = "/r/a" then ["/r/a/x.py"]
      else if d = "/r/b" then ["/r/b/y.py"] else [])
    (fun _ v => if v.contains "b1" then 2 else 0)

def dump6 : List String :=
  [sentinelHeader, "__RUFFWRAP_MODE_m_CMD_0__k0,", "__RUFFWRAP_MODE_m_CMD_5__k5,",
    "__RUFFWRAP_MODE_m_CMD_2__k2,", "]"]

def w6 : WorldOps :=
  WorldOps.mk (fun _ => false) (fun p => "/r/" ++ p) dirnameStr relpathStub
    (some "/usr/bin/ruff") none none
    (fun d => if d = "/r/a" then ProbeResult.lines dump6 else ProbeResult.noFiles)
    (fun d => if d = "/r/a" then ["/r/a/x.py"] else [])
    (fun _ _ => 0)

def dump8 : List String :=
  [sentinelHeader, "__RUFFWRAP_MODE_custom_DEFAULT_DEFINITION__,", "]"]

def w8 : WorldOps :=
  WorldOps.mk (fun _ => false) (fun p => "/r/" ++ p) dirnameStr relpathStub
    (some "/usr/bin/ruff") none none
    (fun d => if d = "/r/a" then ProbeResult.lines dump8 else ProbeResult.noFiles)
    (fun d => if d = "/r/a" then ["/r/a/x.py"] else [])
    (fun _ _ => 0)

def w5 : WorldOps :=
  WorldOps.mk (fun _ => false) (fun p => "/r/" ++ p) dirnameStr relpathStub
    (some "/usr/bin/ruff") none none (fun _ => ProbeResult.noFiles) (fun _ => [])
    (fun _ _ => 0)

/-! ### Helper lemmas: association lists -/

theorem lookup_updAssoc_self {κ α : Type} [DecidableEq κ] (k : κ) (v : α)
    (l : List (κ × α)) : lookupAssoc k (updAssoc k v l) = some v := by
  induction l with
  | nil => simp [updAssoc, lookupAssoc]
  | cons p l ih =>
    by_cases h : p.1 = k
    · simp [updAssoc, lookupAssoc, h]
    · simp [updAssoc, lookupAssoc, h, ih]

theorem lookup_updAssoc_ne {κ α : Type} [DecidableEq κ] (k k2 : κ) (v : α)
    (l : List (κ × α)) (h : k ≠ k2) :
    lookupAssoc k (updAssoc k2 v l) = lookupAssoc k l := by
  have hne : ¬k2 = k := fun h2 => h h2.symm
  induction l with
  | nil => simp [updAssoc, lookupAssoc, hne]
  | cons p l ih =>
    by_cases hp : p.1 = k2
    · simp [updAssoc, lookupAssoc, hp, hne]
    · simp [updAssoc, lookupAssoc, hp, ih]

theorem mem_keys_updAssoc {κ α : Type} [DecidableEq κ] (x k : κ) (v : α)
    (l : List (κ × α)) :
    x ∈ (updAssoc k v l).map Prod.fst ↔ x = k ∨ x ∈ l.map Prod.fst := by
  induction l with
  | nil => simp [updAssoc]
  | cons p l ih =>
    by_cases h : p.1 = k
    · subst h
      have he : updAssoc p.1 v (p :: l) = (p.1, v) :: l := by
        simp [updAssoc]
      rw [he]
      simp only [List.map_cons, List.mem_cons]
      tauto
    · simp only [updAssoc, if_neg h, List.map_cons, List.mem_cons, ih]
      tauto

theorem nodup_keys_updAssoc {κ α : Type} [DecidableEq κ] (k : κ) (v : α)
    (l : List (κ × α)) (h : (l.map Prod.fst).Nodup) :
    ((updAssoc k v l).map Prod.fst).Nodup := by
  induction l with
  | nil => simp [updAssoc]
  | cons p l ih =>
    simp only [List.map_cons, List.nodup_cons] at h
    by_cases hp : p.1 = k
    · simp only [updAssoc, hp, if_true, List.map_cons, List.nodup_cons]
      exact ⟨hp ▸ h.1, h.2⟩
    · simp only [updAssoc, hp, if_false, List.map_cons, List.nodup_cons]
      refine ⟨fun hmem => ?_, ih h.2⟩
      rcases (mem_keys_updAssoc p.1 k v l).1 hmem with he | he
      · exact hp he
      · exact h.1 he

/-! ### Helper lemmas: sorting by key -/

theorem mem_insKeyDesc {β : Type} (p x : Nat × β) (l : List (Nat × β)) :
    x ∈ insKeyDesc p l ↔ x = p ∨ x ∈ l := by
  induction l with
  | nil => simp [insKeyDesc]
  | cons q l ih =>
    by_cases h : q.1 ≤ p.1
    · simp [insKeyDesc, h]
    · simp [insKeyDesc, h, ih]
      tauto

theorem mem_insKeyAsc {β : Type} (p x : Nat × β) (l : List (Nat × β)) :
    x ∈ insKeyAsc p l ↔ x = p ∨ x ∈ l := by
  induction l with
  | nil => simp [insKeyAsc]
  | cons q l ih =>
    by_cases h : p.1 ≤ q.1
    · simp [insKeyAsc, h]
    · simp [insKeyAsc, h, ih]
      tauto

theorem pairwise_insKeyDesc {β : Type} (p : Nat × β) (l : List (Nat × β))
    (h : l.Pairwise (fun a b => b.1 ≤ a.1)) :
    (insKeyDesc p l).Pairwise (fun a b => b.1 ≤ a.1) := by
  induction l with
  | nil => simp [insKeyDesc]
  | cons q l ih =>
    rcases List.pairwise_cons.1 h with ⟨hq, hl⟩
    by_cases hle : q.1 ≤ p.1
    · simp only [insKeyDesc, hle, if_true]
      refine List.pairwise_cons.2 ⟨?_, h⟩
      intro x hx
      rcases List.mem_cons.1 hx with he | he
      · exact he ▸ hle
      · exact le_trans (hq x he) hle
    · simp only [insKeyDesc, hle, if_false]
      refine List.pairwise_cons.2 ⟨?_, ih hl⟩
      intro x hx
      rcases (mem_insKeyDesc p x l).1 hx with he | he
      · exact he ▸ le_of_lt (lt_of_not_le hle)
      · exact hq x he

theorem pairwise_sortKeyDesc {β : Type} (l : List (Nat × β)) :
    (sortKeyDesc l).Pairwise (fun a b => b.1 ≤ a.1) := by
  induction l with
  | nil => simp [sortKeyDesc]
  | cons p l ih => exact pairwise_insKeyDesc p (sortKeyDesc l) ih

theorem pairwise_insKeyAsc {β : Type} (p : Nat × β) (l : List (Nat × β))
    (h : l.Pairwise (fun a b => a.1 ≤ b.1)) :
    (insKeyAsc p l).Pairwise (fun a b => a.1 ≤ b.1) := by
  induction l with
  | nil => simp [insKeyAsc]
  | cons q l ih =>
    rcases List.pairwise_cons.1 h with ⟨hq, hl⟩
    by_cases hle : p.1 ≤ q.1
    · simp only [insKeyAsc, hle, if_true]
      refine List.pairwise_cons.2 ⟨?_, h⟩
      intro x hx
      rcases List.mem_cons.1 hx with he | he
      · exact he ▸ hle
      · exact le_trans hle (hq x he)
    · simp only [insKeyAsc, hle, if_false]
      refine List.pairwise_cons.2 ⟨?_, ih hl⟩
      intro x hx
      rcases (mem_insKeyAsc p x l).1 hx with he | he
      · exact he ▸ le_of_lt (lt_of_not_le hle)
      · exact hq x he

theorem pairwise_sortKeyAsc {β : Type} (l : List (Nat × β)) :
    (sortKeyAsc l).Pairwise (fun a b => a.1 ≤ b.1) := by
  induction l with
  | nil => simp [sortKeyAsc]
  | cons p l ih => exact pairwise_insKeyAsc p (sortKeyAsc l) ih

theorem perm_insKeyDesc {β : Type} (p : Nat × β) (l : List (Nat × β)) :
    List.Perm (insKeyDesc p l) (p :: l) := by
  induction l with
  | nil => simp [insKeyDesc]
  | cons q l ih =>
    by_cases h : q.1 ≤ p.1
    · simp [insKeyDesc, h]
    · simp only [insKeyDesc, h, if_false]
      exact (List.Perm.cons q ih).trans (List.Perm.swap p q l)

theorem perm_sortKeyDesc {β : Type} (l : List (Nat × β)) :
    List.Perm (sortKeyDesc l) l := by
  induction l with
  | nil => exact List.Perm.refl []
  | cons p l ih =>
    exact (perm_insKeyDesc p (sortKeyDesc l)).trans (List.Perm.cons p ih)

theorem sortKeyDesc_strict {β : Type} (l : List (Nat × β))
    (h : (l.map Prod.fst).Nodup) :
    (sortKeyDesc l).Pairwise (fun a b => b.1 < a.1) := by
  have h1 : (sortKeyDesc l).Pairwise (fun a b => b.1 ≤ a.1) := pairwise_sortKeyDesc l
  have h2 : ((sortKeyDesc l).map Prod.fst).Nodup :=
    (((perm_sortKeyDesc l).map Prod.fst).nodup_iff).2 h
  have h3 : (sortKeyDesc l).Pairwise (fun a b => a.1 ≠ b.1) := List.pairwise_map.1 h2
  exact (h1.and h3).imp (fun hab => lt_of_le_of_ne hab.1 (Ne.symm hab.2))

/-! ### Helper lemmas: path grouping -/

theorem nodup_keys_fbdStep (w : WorldOps) (initwd : String)
    (acc : List (Nat × List (String × List String))) (p : String)
    (h : (acc.map Prod.fst).Nodup) :
    ((fbdStep w initwd acc p).map Prod.fst).Nodup := by
  by_cases hid : w.isdir p
  · simpa [fbdStep, hid]
  · simp only [fbdStep, hid, Bool.false_eq_true, if_false]
    exact nodup_keys_updAssoc _ _ _ h

theorem nodup_keys_foldl_fbd (w : WorldOps) (initwd : String) :
    ∀ (paths : List String) (acc : List (Nat × List (String × List String))),
      (acc.map Prod.fst).Nodup →
      ((paths.foldl (fbdStep w initwd) acc).map Prod.fst).Nodup := by
  intro paths
  induction paths with
  | nil => intro acc h; simpa
  | cons p ps ih => intro acc h; exact ih _ (nodup_keys_fbdStep w initwd acc p h)

theorem nodup_keys_filesByDepth (w : WorldOps) (initwd : String) (paths : List String) :
    ((filesByDepth w initwd paths).map Prod.fst).Nodup :=
  nodup_keys_foldl_fbd w initwd paths [] (by simp)

theorem mem_dedupAppend (a f : String) (s : List String) :
    (f ∈ (if a ∈ s then s else s ++ [a])) ↔ f ∈ s ∨ f = a := by
  by_cases h : a ∈ s
  · simp only [if_pos h]
    exact ⟨Or.inl, fun hf => hf.elim id (fun he => he ▸ h)⟩
  · simp [if_neg h]

theorem bucketsOf_upd_ne_depth (acc : List (Nat × List (String × List String)))
    (X : List (String × List String)) (d dp : Nat) (dir : String) (h : d ≠ dp) :
    bucketsOf (updAssoc dp X acc) d dir = bucketsOf acc d dir := by
  simp [bucketsOf, lookup_updAssoc_ne d dp X acc h]

theorem bucketsOf_upd_depth (acc : List (Nat × List (String × List String)))
    (X : List (String × List String)) (dp : Nat) (dir : String) :
    bucketsOf (updAssoc dp X acc) dp dir = (lookupAssoc dir X).getD [] := by
  simp [bucketsOf, lookup_updAssoc_self]

theorem mem_bucketsOf_upd2 (acc : List (Nat × List (String × List String)))
    (dm : List (String × List String)) (s0 : List String) (ap fd : String) (dp : Nat)
    (f : String) (d : Nat) (dir : String)
    (hdm : (lookupAssoc dp acc).getD [] = dm) (hs0 : (lookupAssoc fd dm).getD [] = s0) :
    f ∈ bucketsOf (updAssoc dp (updAssoc fd (if ap ∈ s0 then s0 else s0 ++ [ap]) dm) acc)
        d dir ↔
      f ∈ bucketsOf acc d dir ∨ (f = ap ∧ dir = fd ∧ d = dp) := by
  by_cases hd : d = dp
  · subst hd
    rw [bucketsOf_upd_depth]
    by_cases hdir : dir = fd
    · subst hdir
      rw [lookup_updAssoc_self]
      have hacc : bucketsOf acc d dir = s0 := by
        simp [bucketsOf, hdm, hs0]
      simp only [Option.getD_some, hacc, mem_dedupAppend]
      tauto
    · rw [lookup_updAssoc_ne dir fd _ dm hdir]
      have hacc : bucketsOf acc d dir = (lookupAssoc dir dm).getD [] := by
        simp [bucketsOf, hdm]
      rw [hacc]
      tauto
  · rw [bucketsOf_upd_ne_depth acc _ d dp dir hd]
    tauto

theorem mem_bucketsOf_fbdStep (w : WorldOps) (initwd : String)
    (acc : List (Nat × List (String × List String))) (p f : String) (d : Nat)
    (dir : String) :
    f ∈ bucketsOf (fbdStep w initwd acc p) d dir ↔
      f ∈ bucketsOf acc d dir ∨
        (w.isdir p = false ∧ w.abspath p = f ∧
          dir = w.relpath (w.dirname f) initwd ∧ d = countSlash dir) := by
  by_cases hid : w.isdir p
  · simp [fbdStep, hid]
  · have hid2 : w.isdir p = false := by
      cases hb : w.isdir p
      · rfl
      · exact absurd hb hid
    have hstep := mem_bucketsOf_upd2 acc
      ((lookupAssoc (countSlash (w.relpath (w.dirname (w.abspath p)) initwd)) acc).getD [])
      ((lookupAssoc (w.relpath (w.dirname (w.abspath p)) initwd)
        ((lookupAssoc (countSlash (w.relpath (w.dirname (w.abspath p)) initwd)) acc).getD
          [])).getD [])
      (w.abspath p) (w.relpath (w.dirname (w.abspath p)) initwd)
      (countSlash (w.relpath (w.dirname (w.abspath p)) initwd)) f d dir rfl rfl
    have hunf : fbdStep w initwd acc p =
        updAssoc (countSlash (w.relpath (w.dirname (w.abspath p)) initwd))
          (updAssoc (w.relpath (w.dirname (w.abspath p)) initwd)
            (if w.abspath p ∈
                (lookupAssoc (w.relpath (w.dirname (w.abspath p)) initwd)
                  ((lookupAssoc (countSlash (w.relpath (w.dirname (w.abspath p)) initwd))
                    acc).getD [])).getD []
              then
                (lookupAssoc (w.relpath (w.dirname (w.abspath p)) initwd)
                  ((lookupAssoc (countSlash (w.relpath (w.dirname (w.abspath p)) initwd))
                    acc).getD [])).getD []
              else
                (lookupAssoc (w.relpath (w.dirname (w.abspath p)) initwd)
                  ((lookupAssoc (countSlash (w.relpath (w.dirname (w.abspath p)) initwd))
                    acc).getD [])).getD [] ++ [w.abspath p])
            ((lookupAssoc (countSlash (w.relpath (w.dirname (w.abspath p)) initwd))
              acc).getD [])) acc := by
      simp [fbdStep, hid]
    rw [hunf]
    rw [hstep]
    constructor
    · rintro (hm | ⟨hf, hdir, hd⟩)
      · exact Or.inl hm
      · subst hf; subst hdir; subst hd
        exact Or.inr ⟨hid2, rfl, rfl, rfl⟩
    · rintro (hm | ⟨-, hf, hdir, hd⟩)
      · exact Or.inl hm
      · subst hf; subst hdir; subst hd
        exact Or.inr ⟨rfl, rfl, rfl⟩

theorem mem_bucketsOf_foldl (w : WorldOps) (initwd : String) :
    ∀ (paths : List String) (acc : List (Nat × List (String × List String)))
      (f : String) (d : Nat) (dir : String),
      f ∈ bucketsOf (paths.foldl (fbdStep w initwd) acc) d dir ↔
        f ∈ bucketsOf acc d dir ∨
          ∃ p, p ∈ paths ∧ w.isdir p = false ∧ w.abspath p = f ∧
            dir = w.relpath (w.dirname f) initwd ∧ d = countSlash dir := by
  intro paths
  induction paths with
  | nil => intro acc f d dir; simp
  | cons p ps ih =>
    intro acc f d dir
    rw [List.foldl_cons, ih (fbdStep w initwd acc p) f d dir,
      mem_bucketsOf_fbdStep w initwd acc p f d dir]
    constructor
    · rintro ((hm | hc) | ⟨q, hq, hc⟩)
      · exact Or.inl hm
      · exact Or.inr ⟨p, List.mem_cons_self p ps, hc⟩
      · exact Or.inr ⟨q, List.mem_cons_of_mem p hq, hc⟩
    · rintro (hm | ⟨q, hq, hc⟩)
      · exact Or.inl (Or.inl hm)
      · rcases List.mem_cons.1 hq with he | he
        · exact Or.inl (Or.inr (he ▸ hc))
        · exact Or.inr ⟨q, he, hc⟩

theorem bucketsOf_nil (d : Nat) (dir : String) : bucketsOf [] d dir = [] := rfl

/-! ### Helper lemmas: scanner and orchestrator -/

theorem scanLines_no_header (lines : List String) (st : BSt)
    (h : ∀ l ∈ lines, strStartsWith l sentinelHeader = false) :
    scanLines lines true st = Except.ok st := by
  induction lines with
  | nil => rfl
  | cons l ls ih =>
    have hl := h l (List.mem_cons_self l ls)
    simp only [scanLines, hl, Bool.not_false, Bool.and_true, if_true]
    exact ih (fun x hx => h x (List.mem_cons_of_mem l hx))

theorem scanLines_terminator (l : String) (rest : List String) (st : BSt)
    (h : l.data.getLast? = some ']') :
    scanLines (l :: rest) false st = Except.ok st := by
  simp [scanLines, h]

theorem goBuckets_foldl_max (w : WorldOps) (mode : String) (mr : Bool)
    (initwd : String) :
    ∀ (bs : List (String × List String)) (cs : List Nat) (rc : Nat)
      (log : List (String × List String)),
      bucketCodes w mode mr initwd bs = Except.ok cs →
      ∃ lg, goBuckets w mode mr initwd bs rc log = Except.ok (cs.foldl max rc, lg) := by
  intro bs
  induction bs with
  | nil =>
    intro cs rc log h
    simp only [bucketCodes, Except.ok.injEq] at h
    subst h
    exact ⟨log, rfl⟩
  | cons b bs ih =>
    intro cs rc log h
    cases hpb : processBucket w mode mr initwd b.1 b.2 with
    | error e => rw [bucketCodes, hpb] at h; exact absurd h (by simp)
    | ok r =>
      cases hbc : bucketCodes w mode mr initwd bs with
      | error e => rw [bucketCodes, hpb, hbc] at h; exact absurd h (by simp)
      | ok cs2 =>
        rw [bucketCodes, hpb, hbc] at h
        have hcs : cs = r.1 :: cs2 := by
          exact (Except.ok.inj h).symm
        subst hcs
        rcases ih cs2 (max r.1 rc) (log ++ r.2.map (fun v => (b.1, v))) hbc with ⟨lg, hg⟩
        refine ⟨lg, ?_⟩
        simp only [goBuckets, hpb]
        rw [hg, List.foldl_cons, Nat.max_comm rc r.1]

example : shlexSplit "check --no-fix" = ["check", "--no-fix"] := by decide
example : shlexSplit "--config \"cache-dir = \x27/dev/null\x27\"" =
    ["--config", "cache-dir = \x27/dev/null\x27"] := by decide
example : searchExec "__RUFFWRAP_EXEC__uvx ruff@0.8.0,".data = some "uvx ruff@0.8.0".data := by
  decide
example : searchCmd "__RUFFWRAP_MODE_m_CMD_5__a b,".data = some ("m".data, '5', "a b".data) := by
  decide
example : searchCmd "__RUFFWRAP_MODE_m_CMD_10__a b,".data = none := by decide
example : searchDefDef "__RUFFWRAP_MODE_custom_DEFAULT_DEFINITION__,".data =
    some "custom".data := by decide

def st4 : BSt := BSt.mk "" [("m", [(0, ["a1"]), (1, ["b1"]), (2, ["c1"])])]

def st8 : BSt := BSt.mk "" [("custom", [])]

/-- Claim C1: the claim (and the module docstring) state that with the skip
flag unset and no sentinel override, the RUFFWRAP_EXEC environment default is
preferred over the PATH search.  In the source (cli.py line 143) the
environment default is only consulted when the skip flag is set, so the
embedded resolver falls through to the PATH result at the failing input
(first conjunct).  The claim's second half holds: with the skip flag set the
sentinel override is never applied (second conjunct) and a set environment
default is used (third conjunct). -/
theorem C1_exec_resolution_code :
    resolveExec false (some "/opt/ruff") "" (some "/usr/local/bin/ruff") none =
      Except.ok ["/usr/local/bin/ruff"] ∧
    (∀ (envE : Option String) (s : String) (wr wu : Option String),
      resolveExec true envE s wr wu = resolveExec true envE "" wr wu) ∧
    (∀ (e s : String) (wr wu : Option String),
      resolveExec true (some e) s wr wu = Except.ok (shlexSplit e)) := by
  refine ⟨by decide, ?_, ?_⟩
  · intro envE s wr wu
    simp [resolveExec]
  · intro e s wr wu
    simp [resolveExec]

/-- Claim C2: the claim states that every indexed-command sentinel with any
non-negative integer index, including multi-digit indices such as 10, is
recognized.  The source pattern spells the index group `[\d+]`, a character
class matching one digit (or a plus sign), so the index-10 line is not
recognized and mutates no state (first two conjuncts), while a single-digit
index records the shell-word-split tokens at that index (third conjunct). -/
theorem C2_cmd_index_single_digit :
    searchCmd "__RUFFWRAP_MODE_m_CMD_10__a b,".data = none ∧
    applyRules "__RUFFWRAP_MODE_m_CMD_10__a b," bst0 = Except.ok bst0 ∧
    applyRules "__RUFFWRAP_MODE_m_CMD_2__a b," bst0 =
      Except.ok (BSt.mk "" [("m", [(2, ["a", "b"])])]) := by
  exact ⟨by decide, by decide, by decide⟩

/-- Claim C3 (amended): when executable resolution fails during a batch run
(skip unset, so the per-directory probe resolves with an empty sentinel
override, and neither `ruff` nor `uvx` is on the PATH), the
FileNotFoundError raised inside `self.ruff` is not caught by the bucket
loop, so the whole run aborts instead of recording a bucket-local failure
and continuing. -/
theorem C3_resolution_failure_fatal (w : WorldOps) (mode : String) (mr : Bool)
    (initwd : String) (args paths : List String)
    (hr : w.whichRuff = none) (hu : w.whichUvx = none)
    (hp : getPathsFromArgs args = (true, paths))
    (hb : bucketList (filesByDepth w initwd paths) ≠ []) :
    runB w mode mr false initwd args = Except.error Fatal.toolNotFound := by
  rcases List.exists_cons_of_ne_nil hb with ⟨b, bs, heq⟩
  have h1 : processSentinels false w (absDirOf initwd b.1) bst0 =
      Except.error Fatal.toolNotFound := by
    simp [processSentinels, resolveExec, bst0, hr, hu]
  have h2 : processBucket w mode mr initwd b.1 b.2 =
      Except.error Fatal.toolNotFound := by
    simp [processBucket, h1]
  simp [runB, hp, heq, goBuckets, h2]

/-- Claim C3, counterexample to the claim as stated: at a concrete two-bucket
input with no resolvable executable, the run returns a whole-run error (the
uncaught FileNotFoundError) rather than an aggregate result with the failure
recorded bucket-locally and the second bucket processed. -/
theorem C3_resolution_failure_not_bucket_local_cex :
    runB wFail "m" true false "/r" ["a/x.py", "b/y.py"] =
      Except.error Fatal.toolNotFound ∧
    (runB wFail "m" true false "/r" ["a/x.py", "b/y.py"]).isOk = false := by
  exact ⟨by decide, by decide⟩

/-- Witness for C3: the amended theorem applied at a concrete input. -/
theorem C3_resolution_failure_fatal_witness :
    runB wFail "m" true false "/r" ["a/x.py"] = Except.error Fatal.toolNotFound :=
  C3_resolution_failure_fatal wFail "m" true "/r" ["a/x.py"] ["a/x.py"] rfl rfl
    (by decide) (by decide)

/-- Claim C4: in a bucket whose sorted command sequence is `[A, B, C]` with
`A` succeeding and `B` exiting 2, command `C` is never issued, the bucket's
recorded code is 2 (first conjunct), and the aggregate of a run is the
running maximum of the per-bucket codes starting from 0, so it is 0 when no
bucket failed (second conjunct, which also shows processing continues
through every bucket). -/
theorem C4_sequence_abort_and_aggregate_max :
    (∀ (w : WorldOps) (mode : String) (mr : Bool) (initwd dirPath : String)
        (absPaths : List String) (st : BSt) (pre : List String)
        (cmds : List (Nat × List String)) (i j k : Nat) (A B C fs : List String),
        processSentinels false w (absDirOf initwd dirPath) bst0 = Except.ok st →
        lookupAssoc mode st.modes = some cmds →
        resolveExec false w.envExec st.exec w.whichRuff w.whichUvx = Except.ok pre →
        ((w.showFiles (absDirOf initwd dirPath)).filter
            (fun f => absPaths.contains f)).map basename = fs →
        fs ≠ [] →
        sortKeyAsc cmds = [(i, A), (j, B), (k, C)] →
        w.runCmd (absDirOf initwd dirPath) (pre ++ A ++ fs) = 0 →
        w.runCmd (absDirOf initwd dirPath) (pre ++ B ++ fs) = 2 →
        processBucket w mode mr initwd dirPath absPaths =
          Except.ok (2, [pre ++ A ++ fs, pre ++ B ++ fs])) ∧
    (∀ (w : WorldOps) (mode : String) (mr : Bool) (initwd : String)
        (bs : List (String × List String)) (cs : List Nat),
        bucketCodes w mode mr initwd bs = Except.ok cs →
        ∃ lg, goBuckets w mode mr initwd bs 0 [] = Except.ok (cs.foldl max 0, lg)) := by
  constructor
  · intro w mode mr initwd dirPath absPaths st pre cmds i j k A B C fs
      h1 h2 h3 h4 h5 h6 h7 h8
    have h7x : w.runCmd (absDirOf initwd dirPath) (pre ++ (A ++ fs)) = 0 := by
      rw [← List.append_assoc]; exact h7
    have h8x : w.runCmd (absDirOf initwd dirPath) (pre ++ (B ++ fs)) = 2 := by
      rw [← List.append_assoc]; exact h8
    have hseq : runSeq w (absDirOf initwd dirPath) pre [(i, A), (j, B), (k, C)] fs =
        (2, [pre ++ A ++ fs, pre ++ B ++ fs]) := by
      simp [runSeq, h7x, h8x]
    simp only [processBucket, h1, h2, h3, h4, if_neg h5, h6, hseq]
  · intro w mode mr initwd bs cs h
    exact goBuckets_foldl_max w mode mr initwd bs cs 0 [] h

/-- Witness for C4: a concrete two-bucket world where the first bucket's
declared sequence is a1, b1, c1 with b1 exiting 2: c1 is never issued, the
bucket records 2, the second bucket still runs (recording 0), and the
aggregate is the maximum 2. -/
theorem C4_sequence_abort_and_aggregate_max_witness :
    processBucket w4 "m" false "/r" "a" ["/r/a/x.py"] =
      Except.ok (2, [["/usr/bin/ruff", "a1", "x.py"], ["/usr/bin/ruff", "b1", "x.py"]]) ∧
    (∃ lg, goBuckets w4 "m" false "/r" [("a", ["/r/a/x.py"]), ("b", ["/r/b/y.py"])] 0 [] =
      Except.ok ([2, 0].foldl max 0, lg)) := by
  constructor
  · exact C4_sequence_abort_and_aggregate_max.1 w4 "m" false "/r" "a" ["/r/a/x.py"]
      st4 ["/usr/bin/ruff"] [(0, ["a1"]), (1, ["b1"]), (2, ["c1"])] 0 1 2
      ["a1"] ["b1"] ["c1"] ["x.py"] (by decide) (by decide) (by decide) (by decide)
      (by decide) (by decide) (by decide) (by decide)
  · exact C4_sequence_abort_and_aggregate_max.2 w4 "m" false "/r"
      [("a", ["/r/a/x.py"]), ("b", ["/r/b/y.py"])] [2, 0] (by decide)

/-- Claim C5: a path that is a directory contributes to no bucket and every
remaining file lands in exactly one bucket, keyed by its containing
directory with depth the slash count of that key (first conjunct, a full
membership characterization); the orchestrator's depth iteration is strictly
decreasing (second conjunct); and for files under a/, a/b/ and a/b/c/ the
buckets are processed in order a/b/c, a/b, a (third conjunct). -/
theorem C5_path_grouping_and_depth_order :
    (∀ (w : WorldOps) (initwd : String) (paths : List String) (f : String) (d : Nat)
        (dir : String),
        f ∈ bucketsOf (filesByDepth w initwd paths) d dir ↔
          ∃ p, p ∈ paths ∧ w.isdir p = false ∧ w.abspath p = f ∧
            dir = w.relpath (w.dirname f) initwd ∧ d = countSlash dir) ∧
    (∀ (w : WorldOps) (initwd : String) (paths : List String),
        (sortKeyDesc (filesByDepth w initwd paths)).Pairwise (fun a b => b.1 < a.1)) ∧
    (bucketList (filesByDepth w5 "/r" ["a/x.py", "a/b/y.py", "a/b/c/z.py"])).map
        (fun b => b.1) = ["a/b/c", "a/b", "a"] := by
  refine ⟨?_, ?_, by decide⟩
  · intro w initwd paths f d dir
    have h := mem_bucketsOf_foldl w initwd paths [] f d dir
    simp only [bucketsOf_nil, List.not_mem_nil, false_or] at h
    exact h
  · intro w initwd paths
    exact sortKeyDesc_strict (filesByDepth w initwd paths)
      (nodup_keys_filesByDepth w initwd paths)

/-- Claim C6: command sequences execute in ascending index order: the sorted
view of any declared sequence has nondecreasing keys (first conjunct), and
at a concrete bucket whose sentinels declare indices 0, 5, 2 in that order
the issued commands are those of indices 0, 2, 5 (second conjunct). -/
theorem C6_ascending_index_execution :
    (∀ (cmds : List (Nat × List String)),
        (sortKeyAsc cmds).Pairwise (fun a b => a.1 ≤ b.1)) ∧
    processBucket w6 "m" false "/r" "a" ["/r/a/x.py"] =
      Except.ok (0, [["/usr/bin/ruff", "k0", "x.py"], ["/usr/bin/ruff", "k2", "x.py"],
        ["/usr/bin/ruff", "k5", "x.py"]]) := by
  exact ⟨fun cmds => pairwise_sortKeyAsc cmds, by decide⟩

/-- Claim C7: when the literal token `--` first occurs at a position greater
than zero, batch mode rejects the run with exit code 3 and no invocation
log (first conjunct); when `--` is the first token, the path list is exactly
the tokens after it (second conjunct). -/
theorem C7_delimiter_boundary :
    (∀ (w : WorldOps) (mode : String) (mr : Bool) (initwd : String)
        (args : List String) (i : Nat),
        pythonIndex "--" args = some i → 0 < i →
        runB w mode mr false initwd args = Except.ok (3, [])) ∧
    (∀ rest : List String, getPathsFromArgs ("--" :: rest) = (true, rest)) := by
  constructor
  · intro w mode mr initwd args i h1 h2
    have hg : getPathsFromArgs args = (false, args.take i) := by
      simp [getPathsFromArgs, h1, h2]
    simp [runB, hg]
  · intro rest
    simp [getPathsFromArgs, pythonIndex]

/-- Witness for C7: the theorem applied at the claim's example inputs. -/
theorem C7_delimiter_boundary_witness :
    runB wFail "m" false false "/r" ["foo", "--", "a.py"] = Except.ok (3, []) ∧
    getPathsFromArgs ["--", "a.py"] = (true, ["a.py"]) :=
  ⟨C7_delimiter_boundary.1 wFail "m" false "/r" ["foo", "--", "a.py"] 1 (by decide)
      (by decide),
    C7_delimiter_boundary.2 ["a.py"]⟩

/-- Claim C8: activating a standard definition under a name with no hardcoded
generator installs an empty command sequence, so the mode is present in the
registry (first conjunct), and a bucket whose requested mode is present with
zero commands completes with code 0 and no sequence invocations even under
mode-require — "defined but empty" rather than "undefined" (second
conjunct). -/
theorem C8_unknown_default_definition_empty :
    (∀ (st : BSt) (name : String), knownDefs name = none →
        lookupAssoc name (applyDefDef st name).modes = some []) ∧
    (∀ (w : WorldOps) (mode : String) (initwd dirPath : String)
        (absPaths : List String) (st : BSt),
        processSentinels false w (absDirOf initwd dirPath) bst0 = Except.ok st →
        lookupAssoc mode st.modes = some [] →
        (∃ pre, resolveExec false w.envExec st.exec w.whichRuff w.whichUvx =
          Except.ok pre) →
        processBucket w mode true initwd dirPath absPaths = Except.ok (0, [])) := by
  constructor
  · intro st name h
    simp [applyDefDef, h, lookup_updAssoc_self]
  · intro w mode initwd dirPath absPaths st h1 h2 h3
    rcases h3 with ⟨pre, h3⟩
    by_cases hf : ((w.showFiles (absDirOf initwd dirPath)).filter
        (fun f => absPaths.contains f)).map basename = []
    · simp only [processBucket, h1, h2, h3, if_pos hf]
    · simp only [processBucket, h1, h2, h3, if_neg hf]
      simp [sortKeyAsc, runSeq]

/-- Witness for C8: the unknown name "zzz" is installed with an empty
sequence, and a concrete bucket activating the unknown mode "custom" under
mode-require completes with code 0 and no sequence invocations. -/
theorem C8_unknown_default_definition_empty_witness :
    lookupAssoc "zzz" (applyDefDef bst0 "zzz").modes =
      some ([] : List (Nat × List String)) ∧
    processBucket w8 "custom" true "/r" "a" ["/r/a/x.py"] = Except.ok (0, []) := by
  constructor
  · exact C8_unknown_default_definition_empty.1 bst0 "zzz" (by decide)
  · exact C8_unknown_default_definition_empty.2 w8 "custom" "/r" "a" ["/r/a/x.py"] st8
      (by decide) (by decide) ⟨["/usr/bin/ruff"], by decide⟩

/-- Claim C9: a dump with no header line yields no state mutation (first
conjunct), and once a line whose last character is the closing bracket is
reached after the header, scanning stops, so later sentinel lines have no
effect (second conjunct). -/
theorem C9_no_header_noop_and_terminator_stop :
    (∀ (lines : List String) (st : BSt),
        (∀ l ∈ lines, strStartsWith l sentinelHeader = false) →
        scanLines lines true st = Except.ok st) ∧
    (∀ (l : String) (rest : List String) (st : BSt),
        l.data.getLast? = some ']' →
        scanLines (l :: rest) false st = Except.ok st) :=
  ⟨fun lines st h => scanLines_no_header lines st h,
    fun l rest st h => scanLines_terminator l rest st h⟩

/-- Witness for C9: a headerless dump leaves a nontrivial state untouched,
and a terminator line stops the scan before a would-be exec sentinel. -/
theorem C9_no_header_noop_and_terminator_stop_witness :
    scanLines ["resolved config", "no header here"] true (BSt.mk "x" []) =
      Except.ok (BSt.mk "x" []) ∧
    scanLines ["end]", "__RUFFWRAP_EXEC__late,"] false bst0 = Except.ok bst0 :=
  ⟨C9_no_header_noop_and_terminator_stop.1 ["resolved config", "no header here"]
      (BSt.mk "x" []) (by decide),
    C9_no_header_noop_and_terminator_stop.2 "end]" ["__RUFFWRAP_EXEC__late,"] bst0
      (by decide)⟩

/-- Claim C10: the claim states the line scan is total and treats an empty
line after the header as an unmatched line.  In the source, `line[-1]`
raises IndexError on the empty line, so the scan fails instead: the embedded
scanner returns the IndexError outcome on the header, an empty line, and the
terminator. -/
theorem C10_empty_line_index_error :
    scanLines [sentinelHeader, "", "]"] true bst0 = Except.error Fatal.indexError := by
  decide

end Ruffwrap
